import Mathlib

/-!
Verification of the cli-kit core parsing engine against its specification.

This file shallowly embeds the parts of the cli-kit source that the verified
properties are about:

* `Context.get` / `Context.prop` — the scoped property reads of
  `Context` (src/unnamed/part_001, lines 519-541);
* `Context.registerCommand` — duplicate command detection and alias
  registration (src/unnamed/part_001, lines 617-634);
* `Context.mixProps` / `Context.mixOptions` — the own-property and option
  copying performed when an existing context is mixed into a new one
  (src/unnamed/part_001, lines 104-168 and 236-266);
* `Extension.construct` — the extension resolution algorithm of the
  `Extension` constructor (src/src/parser/extension.js, lines 45-203);
* `Extension.execModel` — `Extension.exec` (src/src/parser/extension.js,
  lines 211-236);
* `CLI.loadExtensions` — the extension-loading loop of the `CLI`
  constructor (src/unnamed/part_000, lines 181-202);
* `CLI.execDispatch` — the post-parse command selection and dispatch of
  `CLI.exec` (src/unnamed/part_000, lines 233-290).

JavaScript `undefined` is modelled as `Option.none`; effectful collaborators
(`which.sync`, `fs.existsSync`, `findPackage`, `require`, `spawn`,
`process.execPath`) are modelled as oracle fields of an environment record,
so every function here is a pure, executable translation of the source's
control flow.
-/

universe u

/-- A JavaScript object viewed as a property map: reading an absent property
yields `none` (i.e. `undefined`). -/
abbrev PropMap (V : Type u) : Type u := String → Option V

/-- The JavaScript idiom `value !== undefined ? value : fallback`. -/
def oget {V : Type u} (value fallback : Option V) : Option V :=
  match value with
  | some v => some v
  | none => fallback

/-- A context's scope chain, local node first: the head holds the node's own
properties and the tail is the parent chain up to the root. -/
abbrev Chain (V : Type u) : Type u := List (PropMap V)

/-- The loop `for (let p = this.parent; p; p = p.parent) value = p.get(name, value)`
of `Context.get` (src/unnamed/part_001, lines 519-525). The recursive call
`p.get(name, value)` is inlined one definitional step — for a parent `p` whose
own parent chain is `rest`, `p.get(name, value)` unfolds to
`oget (Context.getLoop rest name (p name)) value`; the lemma
`Context.getLoop_source_shape` below recovers the source's call shape verbatim. -/
def Context.getLoop {V : Type u} : List (PropMap V) → String → Option V → Option V
  | [], _, value => value
  | p :: rest, name, value =>
      Context.getLoop rest name (oget (Context.getLoop rest name (p name)) value)

/-- `Context.get(name, defaultValue)` (src/unnamed/part_001, lines 519-525):
start from the local property value, run the parent loop, and fall back to the
default only when the final value is `undefined`. -/
def Context.get {V : Type u} (chain : Chain V) (name : String)
    (defaultValue : Option V) : Option V :=
  match chain with
  | [] => defaultValue
  | props :: parents => oget (Context.getLoop parents name (props name)) defaultValue

/-- The inlining performed in `Context.getLoop` is definitional: the loop body
applied to parent `p` is exactly `p.get(name, value)` followed by the rest of
the loop, as in the source. -/
theorem Context.getLoop_source_shape {V : Type u} (p : PropMap V)
    (rest : List (PropMap V)) (name : String) (value : Option V) :
    Context.getLoop (p :: rest) name value =
      Context.getLoop rest name (Context.get (p :: rest) name value) := rfl

/-- The loop `for (let p = this.parent; value === undefined && p; p = p.parent)
value = p.prop(name, value)` of `Context.prop` (src/unnamed/part_001, lines
535-541): it only keeps walking while the value is still `undefined`. The
recursive call `p.prop(name, value)` is inlined one definitional step, exactly
as in `Context.getLoop`; see `Context.propLoop_source_shape`. -/
def Context.propLoop {V : Type u} : List (PropMap V) → String → Option V → Option V
  | _, _, some v => some v
  | [], _, none => none
  | p :: rest, name, none =>
      Context.propLoop rest name (oget (Context.propLoop rest name (p name)) none)

/-- `Context.prop(name, defaultValue)` (src/unnamed/part_001, lines 535-541). -/
def Context.prop {V : Type u} (chain : Chain V) (name : String)
    (defaultValue : Option V) : Option V :=
  match chain with
  | [] => defaultValue
  | props :: parents => oget (Context.propLoop parents name (props name)) defaultValue

/-- The loop body of `Context.propLoop` is exactly `p.prop(name, value)` (with
`value` being `undefined` whenever the body runs) followed by the rest of the
loop, as in the source. -/
theorem Context.propLoop_source_shape {V : Type u} (p : PropMap V)
    (rest : List (PropMap V)) (name : String) :
    Context.propLoop (p :: rest) name none =
      Context.propLoop rest name (Context.prop (p :: rest) name none) := rfl

/-- Spec-side definition, following the specification's words for `get`: walking
root-ward, the *topmost* (closest to the root) non-undefined value wins. The
input list is local-first, so a value found in the tail (closer to the root)
shadows the head. -/
def specTopmost {V : Type u} : List (Option V) → Option V
  | [] => none
  | a :: l => oget (specTopmost l) a

/-- Spec-side definition, following the specification's words for `prop`: the
*bottom-most* (most local) non-undefined value wins, i.e. the first `some` of
the local-first list. -/
def specBottommost {V : Type u} : List (Option V) → Option V
  | [] => none
  | a :: l => oget a (specBottommost l)

theorem oget_none_right {V : Type u} (a : Option V) : oget a none = a := by
  cases a <;> rfl

theorem getLoop_eq_topmost {V : Type u} (l : List (PropMap V)) (name : String)
    (value : Option V) :
    Context.getLoop l name value =
      oget (specTopmost (l.map (fun f => f name))) value := by
  induction l generalizing value with
  | nil => rfl
  | cons p rest ih =>
      show Context.getLoop rest name (oget (Context.getLoop rest name (p name)) value) = _
      rw [ih, ih, List.map_cons]
      show _ = oget (oget (specTopmost (rest.map (fun f => f name))) (p name)) value
      cases specTopmost (rest.map (fun f => f name)) <;> cases p name <;> rfl

theorem propLoop_eq_bottommost {V : Type u} (l : List (PropMap V)) (name : String)
    (value : Option V) :
    Context.propLoop l name value =
      oget value (specBottommost (l.map (fun f => f name))) := by
  induction l generalizing value with
  | nil => cases value <;> rfl
  | cons p rest ih =>
      cases value with
      | some v => rfl
      | none =>
          show Context.propLoop rest name (oget (Context.propLoop rest name (p name)) none) = _
          rw [ih (p name), oget_none_right, ih, List.map_cons]
          show _ = oget none (oget (p name) (specBottommost (rest.map (fun f => f name))))
          cases p name <;> cases specBottommost (rest.map (fun f => f name)) <;> rfl

theorem specTopmost_eq_none_iff {V : Type u} (l : List (Option V)) :
    specTopmost l = none ↔ ∀ a ∈ l, a = none := by
  induction l with
  | nil => simp [specTopmost]
  | cons a l ih =>
      show oget (specTopmost l) a = none ↔ _
      rw [List.forall_mem_cons]
      cases hT : specTopmost l with
      | some v =>
          have hl : ¬ ∀ x ∈ l, x = none := by
            intro hall
            rw [ih.mpr hall] at hT
            cases hT
          cases a <;> simp [oget, hl]
      | none =>
          have hl : ∀ x ∈ l, x = none := ih.mp hT
          cases a <;> simp [oget]
          exact hl

theorem specBottommost_eq_none_iff {V : Type u} (l : List (Option V)) :
    specBottommost l = none ↔ ∀ a ∈ l, a = none := by
  induction l with
  | nil => simp [specBottommost]
  | cons a l ih =>
      show oget a (specBottommost l) = none ↔ _
      rw [List.forall_mem_cons]
      cases a with
      | some v => simp [oget]
      | none => simp [oget, ih]

/-- C3. For every Context node and property name, `get(name, default)` walks the
parent chain toward the root and returns the topmost (closest to root)
non-undefined value, so a root declaration wins over a local one, while
`prop(name, default)` returns the bottom-most (most local) non-undefined value,
falling back outward; both return the supplied default only when the whole
chain yields undefined (the two `iff` conjuncts, together with
`oget none d = d`, express exactly that the default is used precisely when
every link of the chain leaves the property undefined). -/
theorem context_get_prop_scan {V : Type u} (chain : Chain V) (name : String)
    (defaultValue : Option V) :
    Context.get chain name defaultValue =
        oget (specTopmost (chain.map (fun f => f name))) defaultValue
      ∧ Context.prop chain name defaultValue =
        oget (specBottommost (chain.map (fun f => f name))) defaultValue
      ∧ (specTopmost (chain.map (fun f => f name)) = none ↔ ∀ f ∈ chain, f name = none)
      ∧ (specBottommost (chain.map (fun f => f name)) = none ↔ ∀ f ∈ chain, f name = none) := by
  refine ⟨?_, ?_, ?_, ?_⟩
  · cases chain with
    | nil => cases defaultValue <;> rfl
    | cons props parents =>
        show oget (Context.getLoop parents name (props name)) defaultValue = _
        rw [getLoop_eq_topmost, List.map_cons]
        show _ = oget (oget (specTopmost (parents.map (fun f => f name))) (props name)) defaultValue
        cases specTopmost (parents.map (fun f => f name)) <;> cases props name <;> rfl
  · cases chain with
    | nil => cases defaultValue <;> rfl
    | cons props parents =>
        show oget (Context.propLoop parents name (props name)) defaultValue = _
        rw [propLoop_eq_bottommost, List.map_cons]
        show _ = oget (oget (props name) (specBottommost (parents.map (fun f => f name)))) defaultValue
        cases props name <;> cases specBottommost (parents.map (fun f => f name)) <;> rfl
  · rw [specTopmost_eq_none_iff]; simp
  · rw [specBottommost_eq_none_iff]; simp

/-- A command as `Context.registerCommand` observes it: its `name` and the keys
of its `aliases` object (src/src/parser/extension.js and the Command class set
these; only the keys matter to registration). -/
structure CmdModel where
  name : String
  aliases : List String
deriving DecidableEq

/-- A registration error: `E.ALREADY_EXISTS` carrying the offending name. -/
inductive RegErr where
  | alreadyExists (name : String)
deriving DecidableEq

/-- The command-registration state of a `Context`. `commandNames` models the
`CommandList` (modelled from the spec: the CommandList class is not under src/;
spec section 3 describes it as a name-keyed collection, so `has` is membership
of the command name and `add` appends). `lookupCommands` is `lookup.commands`,
a JavaScript object mapping a textual key to the registered command, modelled
by the registered command's name. -/
structure RegState where
  commandNames : List String
  lookupCommands : String → Option String

/-- `Context.registerCommand(cmd)` (src/unnamed/part_001, lines 617-634):
refuse a duplicate command name with `ALREADY_EXISTS`; otherwise add the
command, point `lookup.commands[cmd.name]` at it, and for each alias add a
lookup entry unless the alias is already a registered command name (note that
`cmd.name` itself was just added to the command list, so the check consults the
updated list). -/
def Context.registerCommand (ctx : RegState) (cmd : CmdModel) :
    Except RegErr RegState :=
  if ctx.commandNames.contains cmd.name then
    .error (.alreadyExists cmd.name)
  else
    .ok
      { commandNames := ctx.commandNames ++ [cmd.name]
        lookupCommands :=
          cmd.aliases.foldl
            (fun lk a =>
              if (ctx.commandNames ++ [cmd.name]).contains a then lk
              else fun k => if k = a then some cmd.name else lk k)
            (fun k => if k = cmd.name then some cmd.name else ctx.lookupCommands k) }

theorem registerCommand_fold_preserves (names : List String) (l : List String)
    (v : String) (lk : String → Option String) (a : String)
    (ha : names.contains a = true) :
    (l.foldl
      (fun lk x =>
        if names.contains x then lk
        else fun k => if k = x then some v else lk k)
      lk) a = lk a := by
  induction l generalizing lk with
  | nil => rfl
  | cons x l ih =>
      show (l.foldl _ (if names.contains x then lk else _)) a = lk a
      rw [ih]
      by_cases hx : names.contains x = true
      · rw [if_pos hx]
      · rw [if_neg hx]
        have hax : ¬ a = x := by
          intro h
          rw [h] at ha
          exact hx ha
        simp only [if_neg hax]

/-- C5. For every Context, registering a command whose name equals an already
registered command name fails with `ALREADY_EXISTS`, and an alias of the new
command that would collide with an existing command name is silently dropped
from the lookup rather than overwriting the existing entry (the lookup value at
the colliding alias is unchanged and registration still succeeds). -/
theorem register_command_duplicate_policy (ctx : RegState) (cmd : CmdModel) :
    (ctx.commandNames.contains cmd.name = true →
      Context.registerCommand ctx cmd = .error (.alreadyExists cmd.name))
    ∧ (ctx.commandNames.contains cmd.name = false →
      ∃ ctx', Context.registerCommand ctx cmd = .ok ctx'
        ∧ ∀ a, a ∈ cmd.aliases → ctx.commandNames.contains a = true →
            ctx'.lookupCommands a = ctx.lookupCommands a) := by
  constructor
  · intro h
    unfold Context.registerCommand
    rw [if_pos h]
  · intro h
    unfold Context.registerCommand
    rw [if_neg (by rw [h]; exact Bool.false_ne_true)]
    refine ⟨_, rfl, ?_⟩
    intro a _ ha
    have ha' : (ctx.commandNames ++ [cmd.name]).contains a = true :=
      List.elem_iff.mpr (List.mem_append_left _ (List.elem_iff.mp ha))
    dsimp only
    rw [registerCommand_fold_preserves _ _ _ _ _ ha']
    have hne : ¬ a = cmd.name := by
      intro heq
      rw [heq] at ha
      rw [ha] at h
      cases h
    simp only [if_neg hne]

/-- Concrete registration state for the C5 witness: one command `run` already
registered, with its lookup entry. -/
def regStateW : RegState :=
  { commandNames := ["run"]
    lookupCommands := fun k => if k = "run" then some "run" else none }

/-- Witness for C5: registering a second `run` fails with `ALREADY_EXISTS`, and
registering `go` with colliding alias `run` succeeds while leaving the lookup
entry for `run` untouched. -/
theorem register_command_duplicate_policy_witness :
    Context.registerCommand regStateW ⟨"run", []⟩ =
        .error (.alreadyExists "run")
    ∧ ∃ ctx', Context.registerCommand regStateW ⟨"go", ["run"]⟩ = .ok ctx'
        ∧ ∀ a, a ∈ ["run"] → regStateW.commandNames.contains a = true →
            ctx'.lookupCommands a = regStateW.lookupCommands a :=
  ⟨(register_command_duplicate_policy regStateW ⟨"run", []⟩).1 (by decide),
   (register_command_duplicate_policy regStateW ⟨"go", ["run"]⟩).2 (by decide)⟩

/-- Helper in the style of JavaScript regex search: does `sub` occur as a
contiguous substring of `s` (both as character lists)? -/
def containsSubList : List Char → List Char → Bool
  | [], sub => sub.isPrefixOf []
  | c :: t, sub => sub.isPrefixOf (c :: t) || containsSubList t sub

/-- Test over the character data (kernel-reducible) of whether `s` starts
with `sub`. -/
def strStartsWith (s sub : String) : Bool := sub.data.isPrefixOf s.data

/-- Test over the character data (kernel-reducible) of whether `s` ends
with `sub`. -/
def strEndsWith (s sub : String) : Bool := sub.data.reverse.isPrefixOf s.data.reverse

/-- Substring test over the character data (kernel-reducible). -/
def strContainsSub (s sub : String) : Bool := containsSubList s.data sub.data

/-- The test of `propIgnoreRegExp = /^_events|_links|args|commands|lookup|options$/`
(src/unnamed/part_001, line 107). Regex alternation binds looser than the
anchors, so only the first alternative is anchored at the start and only the
last at the end: `_links`, `args`, `commands` and `lookup` match anywhere in
the property name. -/
def propIgnoreTest (p : String) : Bool :=
  strStartsWith p "_events" || strContainsSub p "_links" || strContainsSub p "args" ||
    strContainsSub p "commands" || strContainsSub p "lookup" || strEndsWith p "options"

/-- The own-property mixing loop of `Context.constructor` (src/unnamed/part_001,
lines 162-168): `for (const prop of Object.keys(params)) if
(!propIgnoreRegExp.test(prop) || ((prop === 'stdout' || prop === 'stderr') &&
ignoreOut)) this[prop] = params[prop]`. The source object's own properties are
modelled as an ordered association list; the result lists the properties that
are copied onto the new context. -/
def Context.mixProps {V : Type u} (ignoreOut : Bool)
    (params : List (String × V)) : List (String × V) :=
  params.filter fun kv =>
    !propIgnoreTest kv.1 || ((kv.1 == "stdout" || kv.1 == "stderr") && ignoreOut)

/-- The option-copying branch of `Context.constructor` (src/unnamed/part_001,
lines 236-266), taken when `params` comes from an existing CLI or Command:
every (group, option) pair is re-added via `this.option(option, group)`, except
that, when the source is a CLI, a non-`version` option whose name is found in
any ancestor context is skipped (`add = !found`). Options are modelled by
name; `ancestors` lists each ancestor context's option names, and the result
lists the `(group, name)` pairs passed to `option()` in order. The source's
`add` flag is inlined: `add` is false exactly when `isCLI`, the name is not
`version`, and the ancestor scan found a duplicate. -/
def Context.mixOptions (isCLI : Bool) (ancestors : List (List String))
    (groups : List (String × List String)) : List (String × String) :=
  groups.flatMap fun g =>
    g.2.filterMap fun o =>
      if isCLI && o != "version" then
        (if ancestors.any (fun names => names.contains o) then none
         else some (g.1, o))
      else some (g.1, o)

/-- Counterexample for C6. The claim says mixing copies every own property
except exactly the reserved set `{args, commands, options, lookup, _events,
_links}`. But `propIgnoreRegExp`'s middle alternatives are not anchored, so the
property name `myargs`, which is not in the reserved set, is also excluded:
mixing an object whose only own property is `myargs` copies nothing. -/
theorem context_mix_counterexample :
    "myargs" ∉ ["args", "commands", "options", "lookup", "_events", "_links"]
    ∧ Context.mixProps false [("myargs", (1 : Nat))] = [] := by
  constructor
  · decide
  · decide

theorem any_contains_eq_false_iff (ancestors : List (List String)) (o : String) :
    (ancestors.any fun names => names.contains o) = false ↔
      ∀ names ∈ ancestors, o ∉ names := by
  rw [← Bool.not_eq_true]
  simp [List.any_eq_true, List.elem_iff]

/-- C6 as amended. Mixing an existing Context into a new Context copies every
own property whose name does not match `propIgnoreRegExp` — i.e. does not start
with `_events`, contain `_links`, `args`, `commands` or `lookup`, or end with
`options`. Every name of the reserved set matches the pattern, but names
merely containing those substrings (such as `myargs`) are excluded too, so the
reserved set is not exact. Options are re-added through `option()` (the pairs
listed by `Context.mixOptions` are exactly the `option()` calls made), and when
mixing from a root CLI every option whose name already appears in any ancestor
context is skipped — except the `version` option, which is always copied; when
the source is not a CLI every option is re-added. -/
theorem context_mix_amended_thm {V : Type u} :
    (∀ p, p ∈ ["args", "commands", "options", "lookup", "_events", "_links"] →
        propIgnoreTest p = true)
    ∧ (∀ (ignoreOut : Bool) (params : List (String × V)) (kv : String × V),
        kv ∈ Context.mixProps ignoreOut params ↔
          kv ∈ params ∧ (propIgnoreTest kv.1 = false ∨
            ((kv.1 = "stdout" ∨ kv.1 = "stderr") ∧ ignoreOut = true)))
    ∧ (∀ (ancestors : List (List String)) (groups : List (String × List String))
        (g o : String),
        (g, o) ∈ Context.mixOptions true ancestors groups ↔
          ((∃ entry ∈ groups, entry.1 = g ∧ o ∈ entry.2) ∧
            (o = "version" ∨ ∀ names ∈ ancestors, o ∉ names)))
    ∧ (∀ (ancestors : List (List String)) (groups : List (String × List String))
        (g o : String),
        (g, o) ∈ Context.mixOptions false ancestors groups ↔
          (∃ entry ∈ groups, entry.1 = g ∧ o ∈ entry.2)) := by
  refine ⟨?_, ?_, ?_, ?_⟩
  · intro p hp
    fin_cases hp <;> decide
  · intro ignoreOut params kv
    unfold Context.mixProps
    rw [List.mem_filter]
    simp only [Bool.or_eq_true, Bool.and_eq_true, Bool.not_eq_true', beq_iff_eq]
  · intro ancestors groups g o
    unfold Context.mixOptions
    simp only [List.mem_flatMap, List.mem_filterMap, Bool.true_and]
    constructor
    · rintro ⟨entry, hentry, o', ho', heq⟩
      by_cases hv : o' = "version"
      · subst hv
        simp only [bne_self_eq_false, Bool.false_eq_true, if_false,
          Option.some.injEq, Prod.mk.injEq] at heq
        obtain ⟨hg, ho⟩ := heq
        subst ho
        exact ⟨⟨entry, hentry, hg, ho'⟩, Or.inl rfl⟩
      · rw [if_pos (by simp [bne_iff_ne, hv])] at heq
        cases hany : ancestors.any fun names => names.contains o' with
        | true => rw [if_pos hany] at heq; cases heq
        | false =>
            rw [if_neg (by rw [hany]; exact Bool.false_ne_true)] at heq
            simp only [Option.some.injEq, Prod.mk.injEq] at heq
            obtain ⟨hg, ho⟩ := heq
            subst ho
            exact ⟨⟨entry, hentry, hg, ho'⟩,
              Or.inr ((any_contains_eq_false_iff ancestors o').mp hany)⟩
    · rintro ⟨⟨entry, hentry, hg, ho⟩, hcond⟩
      refine ⟨entry, hentry, o, ho, ?_⟩
      rcases hcond with hv | hnone
      · subst hv
        simp [hg]
      · by_cases hv : o = "version"
        · subst hv
          simp [hg]
        · rw [if_pos (by simp [bne_iff_ne, hv])]
          rw [if_neg (by rw [(any_contains_eq_false_iff ancestors o).mpr hnone]
                         exact Bool.false_ne_true)]
          rw [hg]
  · intro ancestors groups g o
    unfold Context.mixOptions
    simp only [List.mem_flatMap, List.mem_filterMap, Bool.false_and,
      Bool.false_eq_true, if_false]
    constructor
    · rintro ⟨entry, hentry, o', ho', heq⟩
      simp only [Option.some.injEq, Prod.mk.injEq] at heq
      obtain ⟨hg, ho⟩ := heq
      subst ho
      exact ⟨entry, hentry, hg, ho'⟩
    · rintro ⟨entry, hentry, hg, ho⟩
      exact ⟨entry, hentry, o, ho, by rw [hg]⟩

/-- Witness for C6 (amended): `lookup` matches the ignore pattern; a `banner`
property is copied; the `version` option is copied from a CLI even when an
ancestor declares it; a non-CLI source has all its options re-added. -/
theorem context_mix_amended_thm_witness :
    propIgnoreTest "lookup" = true
    ∧ ("banner", (1 : Nat)) ∈ Context.mixProps false [("banner", 1)]
    ∧ ("g", "version") ∈ Context.mixOptions true [["version"]] [("g", ["version"])]
    ∧ ("g", "x") ∈ Context.mixOptions false [["x"]] [("g", ["x"])] :=
  ⟨(context_mix_amended_thm (V := Nat)).1 "lookup" (by simp),
   ((context_mix_amended_thm (V := Nat)).2.1 false [("banner", 1)] ("banner", 1)).mpr
     ⟨by simp, Or.inl (by decide)⟩,
   ((context_mix_amended_thm (V := Nat)).2.2.1 [["version"]] [("g", ["version"])] "g" "version").mpr
     ⟨⟨("g", ["version"]), by simp, rfl, by simp⟩, Or.inl rfl⟩,
   ((context_mix_amended_thm (V := Nat)).2.2.2 [["x"]] [("g", ["x"])] "g" "x").mpr
     ⟨("g", ["x"]), by simp, rfl, by simp⟩⟩

/-- Extension-related errors raised by the embedded code paths:
`E.INVALID_EXTENSION` and `E.NO_EXECUTABLE` (src/unnamed/part_001, lines 14
and 24), carrying their message string. -/
inductive ExtErr where
  | invalidExtension (msg : String)
  | noExecutable (msg : String)
deriving DecidableEq

/-- What `findPackage(extensionPath)` returns, restricted to the fields the
`Extension` constructor consults: `pkg.main`, `pkg.json.name` and the
`pkg.clikit` flag (whether the nearest manifest declares cli-kit
compatibility). `findPackage` lives in `lib/util` (not under src/); its result
shape is read off the constructor's uses and spec section 6's package manifest
contract. -/
structure PkgInfo where
  main : Option String
  jsonName : String
  clikit : Bool
deriving DecidableEq

/-- The outcome of `require(pkg.main)` after the `__esModule` unwrap, as the
constructor discriminates it: the require call threw; it yielded a value that
is not a truthy object; or it yielded an object, which is `compatible` exactly
when `ctx.clikit instanceof Set && (ctx.clikit.has('CLI') ||
ctx.clikit.has('Command'))`. -/
inductive RequireOutcome where
  | throws (errMsg : String)
  | exportsNonObject
  | exportsObject (compatible : Bool)
deriving DecidableEq

/-- The environment the `Extension` constructor probes. Each field is the
oracle answer of one effectful collaborator: `whichResult` is `which.sync`
(`none` when it throws, i.e. the path is not an executable on PATH);
`existsOnDisk` is `fs.existsSync(extensionPath)`; `pkg` is
`findPackage(extensionPath)`; `requireMain` is the `require(pkg.main)` outcome;
`ignoreInvalidExtensions` is `params.ignoreInvalidExtensions ||
params.parent.get('ignoreInvalidExtensions', false)`;
`ignoreMissingExtensions` is `this.get('ignoreMissingExtensions', false)`;
`runtime` is `process.execPath`. -/
structure ExtEnv where
  extensionPath : String
  whichResult : Option String
  existsOnDisk : Bool
  pkg : PkgInfo
  requireMain : RequireOutcome
  ignoreInvalidExtensions : Bool
  ignoreMissingExtensions : Bool
  runtime : String
deriving DecidableEq

/-- The action an `Extension` ends up with: `() => this.exec()` for executable
variants; an invalid-stub action that writes a diagnostic to stderr (`Bad
extension` plus the error and trimmed stack, `Invalid extension`, or
`Extension not found`, see src/src/parser/extension.js lines 106-122 and
193-196); or, for a merged cli-kit extension, whatever action the loaded
context supplied (`params = ctx`). -/
inductive ExtAction where
  | spawnExec
  | stubBadExtension (pkgName errMsg : String)
  | stubInvalidExtension (pkgName : String)
  | stubNotFound (extensionPath : String)
  | mergedContextAction
deriving DecidableEq

/-- The observable result of a successful `Extension` construction: the final
`executable`, `execArgs`, `isCLIKitExtension` fields and the action installed.
Name/alias/description synthesis from the manifest (lines 135-156 of the
source) is orthogonal to the resolution variants and is not modelled. -/
structure ExtensionModel where
  executable : Option String
  execArgs : List String
  isCLIKitExtension : Bool
  action : ExtAction
deriving DecidableEq

/-- The resolution algorithm of the `Extension` constructor
(src/src/parser/extension.js, lines 62-203), including the final
`if/else if` chain after `super()`:

1. `which.sync` succeeds → executable variant (`executable` = resolved path,
   `execArgs = []`, action spawns).
2. Otherwise, if the path exists on disk: a package without a `main` file
   fails with `INVALID_EXTENSION`. If `pkg.clikit` is set, the entry point is
   required: a compatible object is merged (`isCLIKitExtension` stays `true`,
   `executable` stays `null`); an object that is not cli-kit compatible resets
   `isCLIKitExtension` to `false` and falls through to the Node-package branch
   (`executable = process.execPath`, `execArgs = [extensionPath]`, action
   spawns); a non-object result or a require error yields a stderr-diagnostic
   stub when `ignoreInvalidExtensions` is set (note `isCLIKitExtension` is
   still `true` there, line 95) and otherwise throws `INVALID_EXTENSION`.
   Without `pkg.clikit`, the Node-package branch applies directly.
3. Otherwise (path missing): a not-found stub if `ignoreMissingExtensions`,
   else `INVALID_EXTENSION`. -/
def Extension.construct (env : ExtEnv) : Except ExtErr ExtensionModel :=
  match env.whichResult with
  | some exe =>
      .ok { executable := some exe, execArgs := [], isCLIKitExtension := false,
            action := .spawnExec }
  | none =>
      if env.existsOnDisk then
        match env.pkg.main with
        | none =>
            .error (.invalidExtension
              ("Unable to find extension main file: " ++ env.extensionPath))
        | some _ =>
            if env.pkg.clikit then
              match env.requireMain with
              | .exportsObject true =>
                  .ok { executable := none, execArgs := [],
                        isCLIKitExtension := true, action := .mergedContextAction }
              | .exportsObject false =>
                  .ok { executable := some env.runtime,
                        execArgs := [env.extensionPath],
                        isCLIKitExtension := false, action := .spawnExec }
              | .exportsNonObject =>
                  if env.ignoreInvalidExtensions then
                    .ok { executable := none, execArgs := [],
                          isCLIKitExtension := true,
                          action := .stubInvalidExtension env.pkg.jsonName }
                  else
                    .error (.invalidExtension
                      ("Extension does not export an object: " ++ env.extensionPath))
              | .throws msg =>
                  if env.ignoreInvalidExtensions then
                    .ok { executable := none, execArgs := [],
                          isCLIKitExtension := true,
                          action := .stubBadExtension env.pkg.jsonName msg }
                  else
                    .error (.invalidExtension
                      ("Bad extension \"" ++ env.pkg.jsonName ++ "\": " ++ msg))
            else
              .ok { executable := some env.runtime,
                    execArgs := [env.extensionPath],
                    isCLIKitExtension := false, action := .spawnExec }
      else
        if env.ignoreMissingExtensions then
          .ok { executable := none, execArgs := [],
                isCLIKitExtension := false,
                action := .stubNotFound env.extensionPath }
        else
          .error (.invalidExtension ("Extension not found: " ++ env.extensionPath))

/-- Concrete environment for the C1 counterexample: a package on disk whose
manifest declares cli-kit compatibility, whose entry point loads successfully
but exports an object that is not a cli-kit context, with
`ignoreInvalidExtensions` set. -/
def envNonCompat : ExtEnv :=
  { extensionPath := "/ext/foo"
    whichResult := none
    existsOnDisk := true
    pkg := { main := some "/ext/foo/index.js", jsonName := "foo", clikit := true }
    requireMain := .exportsObject false
    ignoreInvalidExtensions := true
    ignoreMissingExtensions := false
    runtime := "/usr/bin/node" }

/-- Counterexample for C1. The claim says that, for a package with cli-kit
metadata, a non-compatible load result with `ignoreInvalidExtensions` set
produces an invalid stub (or, without the flag, fails with
`INVALID_EXTENSION`). On `envNonCompat` — a successful load of a
non-compatible *object*, flag set — the constructor instead resets
`isCLIKitExtension` and falls through to the runtime-executable variant:
`executable = process.execPath`, `execArgs = [path]`, spawning action, and no
stub diagnostic at all. -/
theorem extension_resolution_counterexample :
    envNonCompat.ignoreInvalidExtensions = true
    ∧ envNonCompat.requireMain = .exportsObject false
    ∧ Extension.construct envNonCompat =
        .ok { executable := some "/usr/bin/node", execArgs := ["/ext/foo"],
              isCLIKitExtension := false, action := .spawnExec } := by
  refine ⟨rfl, rfl, rfl⟩

/-- C1 as amended. For every extension path, resolution follows this order:
(1) if the path resolves as an executable on PATH, the Extension becomes the
executable variant whose action spawns the process; (2) else if the path
exists on disk: a manifest without a main file fails with `INVALID_EXTENSION`;
if the nearest manifest declares cli-kit compatibility, loading the entry point
either merges the compatible context (`isCLIKitExtension = true`), or — when
the loaded value is an object that is not cli-kit compatible — falls through to
the runtime-executable variant, or — when the load errored or yielded a
non-object — produces an invalid stub whose action prints a diagnostic to
stderr if `ignoreInvalidExtensions` is set and otherwise fails with
`INVALID_EXTENSION`; a package without cli-kit metadata (with a main file)
becomes an executable variant run under the current runtime with
`executable = runtime` and `execArgs = [path]`; (3) else a missing path
produces an invalid stub if `ignoreMissingExtensions` is set, and otherwise
fails with `INVALID_EXTENSION`. -/
theorem extension_resolution_order (env : ExtEnv) :
    (∀ exe, env.whichResult = some exe →
      Extension.construct env =
        .ok { executable := some exe, execArgs := [],
              isCLIKitExtension := false, action := .spawnExec })
    ∧ (env.whichResult = none → env.existsOnDisk = true → env.pkg.main = none →
      Extension.construct env = .error (.invalidExtension
        ("Unable to find extension main file: " ++ env.extensionPath)))
    ∧ (env.whichResult = none → env.existsOnDisk = true → env.pkg.main ≠ none →
       env.pkg.clikit = true → env.requireMain = .exportsObject true →
      Extension.construct env =
        .ok { executable := none, execArgs := [],
              isCLIKitExtension := true, action := .mergedContextAction })
    ∧ (env.whichResult = none → env.existsOnDisk = true → env.pkg.main ≠ none →
       env.pkg.clikit = true → env.requireMain = .exportsObject false →
      Extension.construct env =
        .ok { executable := some env.runtime, execArgs := [env.extensionPath],
              isCLIKitExtension := false, action := .spawnExec })
    ∧ (env.whichResult = none → env.existsOnDisk = true → env.pkg.main ≠ none →
       env.pkg.clikit = true → env.requireMain = .exportsNonObject →
       env.ignoreInvalidExtensions = true →
      Extension.construct env =
        .ok { executable := none, execArgs := [],
              isCLIKitExtension := true,
              action := .stubInvalidExtension env.pkg.jsonName })
    ∧ (env.whichResult = none → env.existsOnDisk = true → env.pkg.main ≠ none →
       env.pkg.clikit = true → env.requireMain = .exportsNonObject →
       env.ignoreInvalidExtensions = false →
      Extension.construct env = .error (.invalidExtension
        ("Extension does not export an object: " ++ env.extensionPath)))
    ∧ (∀ msg, env.whichResult = none → env.existsOnDisk = true →
       env.pkg.main ≠ none → env.pkg.clikit = true →
       env.requireMain = .throws msg → env.ignoreInvalidExtensions = true →
      Extension.construct env =
        .ok { executable := none, execArgs := [],
              isCLIKitExtension := true,
              action := .stubBadExtension env.pkg.jsonName msg })
    ∧ (∀ msg, env.whichResult = none → env.existsOnDisk = true →
       env.pkg.main ≠ none → env.pkg.clikit = true →
       env.requireMain = .throws msg → env.ignoreInvalidExtensions = false →
      Extension.construct env = .error (.invalidExtension
        ("Bad extension \"" ++ env.pkg.jsonName ++ "\": " ++ msg)))
    ∧ (env.whichResult = none → env.existsOnDisk = true → env.pkg.main ≠ none →
       env.pkg.clikit = false →
      Extension.construct env =
        .ok { executable := some env.runtime, execArgs := [env.extensionPath],
              isCLIKitExtension := false, action := .spawnExec })
    ∧ (env.whichResult = none → env.existsOnDisk = false →
       env.ignoreMissingExtensions = true →
      Extension.construct env =
        .ok { executable := none, execArgs := [],
              isCLIKitExtension := false,
              action := .stubNotFound env.extensionPath })
    ∧ (env.whichResult = none → env.existsOnDisk = false →
       env.ignoreMissingExtensions = false →
      Extension.construct env = .error (.invalidExtension
        ("Extension not found: " ++ env.extensionPath))) := by
  refine ⟨?_, ?_, ?_, ?_, ?_, ?_, ?_, ?_, ?_, ?_, ?_⟩
  · intro exe h
    simp [Extension.construct, h]
  · intro h1 h2 h3
    simp [Extension.construct, h1, h2, h3]
  · intro h1 h2 h3 h4 h5
    obtain ⟨m, hm⟩ := Option.ne_none_iff_exists'.mp h3
    simp [Extension.construct, h1, h2, hm, h4, h5]
  · intro h1 h2 h3 h4 h5
    obtain ⟨m, hm⟩ := Option.ne_none_iff_exists'.mp h3
    simp [Extension.construct, h1, h2, hm, h4, h5]
  · intro h1 h2 h3 h4 h5 h6
    obtain ⟨m, hm⟩ := Option.ne_none_iff_exists'.mp h3
    simp [Extension.construct, h1, h2, hm, h4, h5, h6]
  · intro h1 h2 h3 h4 h5 h6
    obtain ⟨m, hm⟩ := Option.ne_none_iff_exists'.mp h3
    simp [Extension.construct, h1, h2, hm, h4, h5, h6]
  · intro msg h1 h2 h3 h4 h5 h6
    obtain ⟨m, hm⟩ := Option.ne_none_iff_exists'.mp h3
    simp [Extension.construct, h1, h2, hm, h4, h5, h6]
  · intro msg h1 h2 h3 h4 h5 h6
    obtain ⟨m, hm⟩ := Option.ne_none_iff_exists'.mp h3
    simp [Extension.construct, h1, h2, hm, h4, h5, h6]
  · intro h1 h2 h3 h4
    obtain ⟨m, hm⟩ := Option.ne_none_iff_exists'.mp h3
    simp [Extension.construct, h1, h2, hm, h4]
  · intro h1 h2 h3
    simp [Extension.construct, h1, h2, h3]
  · intro h1 h2 h3
    simp [Extension.construct, h1, h2, h3]

/-- Concrete environment for the C1 witness: the path resolves on PATH. -/
def envWhich : ExtEnv :=
  { extensionPath := "git"
    whichResult := some "/usr/bin/git"
    existsOnDisk := false
    pkg := { main := none, jsonName := "", clikit := false }
    requireMain := .exportsNonObject
    ignoreInvalidExtensions := false
    ignoreMissingExtensions := false
    runtime := "/usr/bin/node" }

/-- Witness for C1 (amended): a PATH-resolvable extension becomes the
executable variant, and `envNonCompat` lands in the runtime-executable
fall-through branch. -/
theorem extension_resolution_order_witness :
    Extension.construct envWhich =
        .ok { executable := some "/usr/bin/git", execArgs := [],
              isCLIKitExtension := false, action := .spawnExec }
    ∧ Extension.construct envNonCompat =
        .ok { executable := some "/usr/bin/node", execArgs := ["/ext/foo"],
              isCLIKitExtension := false, action := .spawnExec } :=
  ⟨(extension_resolution_order envWhich).1 "/usr/bin/git" rfl,
   (extension_resolution_order envNonCompat).2.2.2.1 rfl rfl (by decide) rfl rfl⟩

/-- A spawn stdio mode: `'inherit'` or `'pipe'`. -/
inductive StdioMode where
  | inherit
  | pipe
deriving DecidableEq

/-- Whether the terminal's streams obtained via `this.get('terminal')` are the
process's real streams (`stdin === process.stdin` etc.), which `Extension.exec`
consults to compute the stdio descriptor. -/
structure TerminalEnv where
  stdinIsProcessStdin : Bool
  stdoutIsProcessStdout : Bool
  stderrIsProcessStderr : Bool
deriving DecidableEq

/-- The observable `spawn(this.executable, this.execArgs, { stdio })` call. -/
structure SpawnCall where
  executable : String
  args : List String
  stdioModes : List StdioMode
deriving DecidableEq

/-- How the promise returned by `Extension.exec` settles. -/
inductive ExecOutcome where
  | resolved (code : Int)
  | rejected (err : ExtErr)
deriving DecidableEq

/-- `Extension.exec()` (src/src/parser/extension.js, lines 211-236). Without an
`executable` the promise rejects with `NO_EXECUTABLE` and nothing is spawned.
Otherwise the executable is spawned with `execArgs` and the three-entry stdio
descriptor (each entry is `'inherit'` unless this is a cli-kit extension whose
corresponding terminal stream is not the process's real stream, in which case
it is `'pipe'`), and the promise resolves with the child's close code —
`child.on('close', (code = 0) => resolve({ code }))`; `closeCode = none` models
an `undefined` close code, defaulted to 0. The child's exit code is never
inspected, so the promise never rejects after a spawn. -/
def Extension.execModel (m : ExtensionModel) (t : TerminalEnv)
    (closeCode : Option Int) : ExecOutcome × Option SpawnCall :=
  match m.executable with
  | none => (.rejected (.noExecutable "No executable to run"), none)
  | some exe =>
      (.resolved (closeCode.getD 0),
       some { executable := exe
              args := m.execArgs
              stdioModes :=
                [ if !m.isCLIKitExtension || t.stdinIsProcessStdin then
                    .inherit
                  else .pipe,
                  if !m.isCLIKitExtension || t.stdoutIsProcessStdout then
                    .inherit
                  else .pipe,
                  if !m.isCLIKitExtension || t.stderrIsProcessStderr then
                    .inherit
                  else .pipe ] })

/-- C7. For every Extension with a non-null executable, `exec()` spawns the
executable with `execArgs` and a computed three-entry stdio descriptor, and
the returned promise resolves with the close code for every possible close
code — in particular it never rejects because of a non-zero exit code. -/
theorem extension_exec_spawn_resolves (m : ExtensionModel) (t : TerminalEnv)
    (closeCode : Option Int) (exe : String) (h : m.executable = some exe) :
    Extension.execModel m t closeCode =
        (.resolved (closeCode.getD 0),
         some { executable := exe
                args := m.execArgs
                stdioModes :=
                  [ if !m.isCLIKitExtension || t.stdinIsProcessStdin then
                      .inherit
                    else .pipe,
                    if !m.isCLIKitExtension || t.stdoutIsProcessStdout then
                      .inherit
                    else .pipe,
                    if !m.isCLIKitExtension || t.stderrIsProcessStderr then
                      .inherit
                    else .pipe ] })
      ∧ ∀ err, (Extension.execModel m t closeCode).1 ≠ .rejected err := by
  constructor
  · unfold Extension.execModel
    rw [h]
  · intro err
    unfold Extension.execModel
    rw [h]
    intro hcontra
    cases hcontra

/-- Witness for C7: an extension wrapping `/bin/true` with one passthrough
argument, a real terminal, and a non-zero close code resolves with that code
and spawns with all-inherit stdio. -/
theorem extension_exec_spawn_resolves_witness :
    Extension.execModel
        { executable := some "/bin/true", execArgs := ["x"],
          isCLIKitExtension := false, action := .spawnExec }
        { stdinIsProcessStdin := true, stdoutIsProcessStdout := true,
          stderrIsProcessStderr := true }
        (some 3) =
      (.resolved 3,
       some { executable := "/bin/true", args := ["x"],
              stdioModes := [.inherit, .inherit, .inherit] }) :=
  (extension_exec_spawn_resolves
    { executable := some "/bin/true", execArgs := ["x"],
      isCLIKitExtension := false, action := .spawnExec }
    { stdinIsProcessStdin := true, stdoutIsProcessStdout := true,
      stderrIsProcessStderr := true }
    (some 3) "/bin/true" rfl).1

/-- C10. For every Extension whose `executable` field is null (such as a merged
cli-kit extension or an invalid stub), calling `exec()` returns a promise
rejected with a `NO_EXECUTABLE` error and no child process is spawned. -/
theorem extension_exec_no_executable_rejects (m : ExtensionModel)
    (t : TerminalEnv) (closeCode : Option Int) (h : m.executable = none) :
    Extension.execModel m t closeCode =
      (.rejected (.noExecutable "No executable to run"), none) := by
  unfold Extension.execModel
  rw [h]

/-- Witness for C10: a merged cli-kit extension (as produced by
`Extension.construct` on a compatible package) has no executable, and its
`exec` rejects with `NO_EXECUTABLE` without spawning. -/
theorem extension_exec_no_executable_rejects_witness :
    Extension.execModel
        { executable := none, execArgs := [],
          isCLIKitExtension := true, action := .mergedContextAction }
        { stdinIsProcessStdin := true, stdoutIsProcessStdout := true,
          stderrIsProcessStderr := true }
        (some 0) =
      (.rejected (.noExecutable "No executable to run"), none) :=
  extension_exec_no_executable_rejects
    { executable := none, execArgs := [],
      isCLIKitExtension := true, action := .mergedContextAction }
    { stdinIsProcessStdin := true, stdoutIsProcessStdout := true,
      stderrIsProcessStderr := true }
    (some 0) rfl

/-- The extension-loading loop of `CLI.constructor` (src/unnamed/part_000,
lines 181-202): every `this.extension(ext)` call is wrapped in try/catch
individually, and a thrown error is pushed onto `this.warnings` and logged
(`warn(e)`; logging is not modelled). The result is the pair (warnings
accumulated, extensions successfully constructed), in order. -/
def CLI.loadExtensions (exts : List ExtEnv) : List ExtErr × List ExtensionModel :=
  exts.foldl
    (fun acc ext =>
      match Extension.construct ext with
      | .ok m => (acc.1, acc.2 ++ [m])
      | .error e => (acc.1 ++ [e], acc.2))
    ([], [])

theorem loadExtensions_foldl (exts : List ExtEnv)
    (acc : List ExtErr × List ExtensionModel) :
    exts.foldl
      (fun acc ext =>
        match Extension.construct ext with
        | .ok m => (acc.1, acc.2 ++ [m])
        | .error e => (acc.1 ++ [e], acc.2))
      acc =
    (acc.1 ++ exts.filterMap (fun e =>
        match Extension.construct e with
        | .error err => some err
        | .ok _ => none),
     acc.2 ++ exts.filterMap (fun e =>
        match Extension.construct e with
        | .ok m => some m
        | .error _ => none)) := by
  induction exts generalizing acc with
  | nil => simp
  | cons e exts ih =>
      show List.foldl _ (match Extension.construct e with
        | .ok m => (acc.1, acc.2 ++ [m])
        | .error err => (acc.1 ++ [err], acc.2)) exts = _
      cases hc : Extension.construct e with
      | ok m => simp [ih, hc, List.filterMap_cons]
      | error err => simp [ih, hc, List.filterMap_cons]

/-- C4 as amended. When a CLI is constructed with extensions, every
extension-load failure is caught, appended to the root's warnings list, and
logged — regardless of `ignoreInvalidExtensions`. The flag only controls
whether the `Extension` constructor itself produces an invalid stub (set) or
throws (unset); a throw still becomes a warning at the CLI level instead of
failing construction. `CLI.loadExtensions` is total: the warnings are exactly
the errors of the failing extension constructions, in order, and the loaded
extensions are exactly the successes, in order. -/
theorem cli_extensions_warnings (exts : List ExtEnv) :
    (CLI.loadExtensions exts).1 = exts.filterMap (fun e =>
        match Extension.construct e with
        | .error err => some err
        | .ok _ => none)
    ∧ (CLI.loadExtensions exts).2 = exts.filterMap (fun e =>
        match Extension.construct e with
        | .ok m => some m
        | .error _ => none) := by
  unfold CLI.loadExtensions
  rw [loadExtensions_foldl]
  simp

/-- Concrete environment for the C4 counterexample: a cli-kit-flagged package
whose entry point throws on require, with `ignoreInvalidExtensions` unset, so
the `Extension` constructor throws `INVALID_EXTENSION`. -/
def envBadC4 : ExtEnv :=
  { extensionPath := "/ext/broken"
    whichResult := none
    existsOnDisk := true
    pkg := { main := some "/ext/broken/index.js", jsonName := "broken", clikit := true }
    requireMain := .throws "boom"
    ignoreInvalidExtensions := false
    ignoreMissingExtensions := false
    runtime := "/usr/bin/node" }

/-- Counterexample for C4. The claim says that with `ignoreInvalidExtensions`
false the load error propagates and CLI construction fails. On `envBadC4` the
`Extension` constructor does throw `INVALID_EXTENSION`, yet the CLI
constructor's unconditional try/catch turns it into a warning: construction
completes (the loading loop returns normally) with the error recorded in
`warnings` and no extension registered — it does not fail. -/
theorem cli_extensions_caught_counterexample :
    envBadC4.ignoreInvalidExtensions = false
    ∧ Extension.construct envBadC4 =
        .error (.invalidExtension "Bad extension \"broken\": boom")
    ∧ CLI.loadExtensions [envBadC4] =
        ([.invalidExtension "Bad extension \"broken\": boom"], []) :=
  ⟨rfl, rfl, rfl⟩

/-- The runtime class of a context node reached by the parser, mirroring the
`instanceof` checks in `CLI.exec`: a plain `Context` (e.g. the root CLI), a
`Command`, or an `Extension` (which, in the source, extends `Command`, so it
also passes `instanceof Command`). -/
inductive CtxKind where
  | plain
  | command
  | extensionCmd (isCLIKit : Bool)
deriving DecidableEq

/-- `cmd instanceof Command`: `Extension extends Command`, so extensions pass. -/
def CtxKind.isCommandInstance : CtxKind → Bool
  | .plain => false
  | .command => true
  | .extensionCmd _ => true

/-- `cmd instanceof Extension`. -/
def CtxKind.isExtensionInstance : CtxKind → Bool
  | .extensionCmd _ => true
  | _ => false

/-- `cmd.isCLIKitExtension` (falsy on non-extensions). -/
def CtxKind.isCLIKitExtension : CtxKind → Bool
  | .extensionCmd b => b
  | _ => false

/-- A context node as `CLI.exec` observes it: its name, runtime class, and
whether `typeof cmd.action === 'function'`. -/
structure CtxNode where
  name : String
  kind : CtxKind
  hasAction : Bool
deriving DecidableEq

/-- The `CLI` state consulted by `exec`'s command selection: `this.help`,
`this.defaultCommand`, and the registered commands. `commandsGet` models
`this.commands.get` (modelled from the spec: the CommandList class is not
under src/; spec section 3 describes it as a name-keyed map, so
`this.commands.has(n)` is `(commandsGet n).isSome`). -/
structure CLIModel where
  helpEnabled : Bool
  defaultCommand : Option String
  commandsGet : String → Option CtxNode

/-- What the parser handed back to `exec`: the truthiness of `argv.help` and
the terminal-first `contexts` list. -/
structure ParseOutcome where
  argvHelp : Bool
  contexts : List CtxNode

/-- How `exec` returns after selection: `await cmd.action(results)` for the
selected command, or the parse `results` object when there is no action to
invoke. The selection region of `CLI.exec` (src/unnamed/part_000, lines
252-290) contains no throw site, so no error outcome exists here. -/
inductive ExecReturn where
  | actionResult (cmd : CtxNode)
  | parsedArgs
deriving DecidableEq

/-- The observable outcome of `CLI.exec`'s selection and dispatch: the final
`cmd` variable, the `contexts` list after any `unshift`, and the return. -/
structure ExecOut where
  selected : Option CtxNode
  contexts : List (Option CtxNode)
  ret : ExecReturn
deriving DecidableEq

/-- JavaScript truthiness of `this.defaultCommand` (a string: falsy when unset
or empty). -/
def defaultCommandTruthy : Option String → Bool
  | none => false
  | some d => d != ""

/-- `this.commands.has(this.defaultCommand)`. -/
def CLIModel.defaultRegistered (cli : CLIModel) : Bool :=
  match cli.defaultCommand with
  | some d => (cli.commandsGet d).isSome
  | none => false

/-- `this.commands.get(this.defaultCommand)`. -/
def CLIModel.defaultLookup (cli : CLIModel) : Option CtxNode :=
  match cli.defaultCommand with
  | some d => cli.commandsGet d
  | none => none

/-- `!(cmd instanceof Extension) || cmd.isCLIKitExtension` for
`cmd = contexts[0]`; on an empty contexts list `cmd` is `undefined` and
`undefined instanceof Extension` is false, so the guard holds. -/
def CLI.helpRedirectOk : Option CtxNode → Bool
  | none => true
  | some c => !c.kind.isExtensionInstance || c.kind.isCLIKitExtension

/-- `cmd instanceof Command` for the optional `cmd = contexts[0]`. -/
def isCommandOpt : Option CtxNode → Bool
  | some c => c.kind.isCommandInstance
  | none => false

/-- `if (cmd && typeof cmd.action === 'function') return await
cmd.action(results); return results;` (src/unnamed/part_000, lines 284-290). -/
def execRet : Option CtxNode → ExecReturn
  | some c => if c.hasAction then .actionResult c else .parsedArgs
  | none => .parsedArgs

/-- The command selection and dispatch of `CLI.exec`
(src/unnamed/part_000, lines 233-290), starting from the parse result:

```
let cmd = contexts[0];
if (this.help && argv.help && (!(cmd instanceof Extension) || cmd.isCLIKitExtension)) {
  cmd = this.commands.get('help'); contexts.unshift(cmd);
} else if (!(cmd instanceof Command) && this.defaultCommand
           && this.commands.has(this.defaultCommand)) {
  cmd = this.commands.get(this.defaultCommand); contexts.unshift(cmd);
}
...
if (cmd && typeof cmd.action === 'function') return await cmd.action(results);
return results;
```

The `results.contexts` field aliases the mutated array, so the final contexts
list reflects the `unshift`. Banner wiring and the help thunk (lines 263-281)
do not affect selection and are not modelled. -/
def CLI.execDispatch (cli : CLIModel) (p : ParseOutcome) : ExecOut :=
  if cli.helpEnabled && p.argvHelp && CLI.helpRedirectOk p.contexts.head? then
    { selected := cli.commandsGet "help"
      contexts := cli.commandsGet "help" :: p.contexts.map some
      ret := execRet (cli.commandsGet "help") }
  else if !isCommandOpt p.contexts.head?
      && defaultCommandTruthy cli.defaultCommand
      && cli.defaultRegistered then
    { selected := cli.defaultLookup
      contexts := cli.defaultLookup :: p.contexts.map some
      ret := execRet cli.defaultLookup }
  else
    { selected := p.contexts.head?
      contexts := p.contexts.map some
      ret := execRet p.contexts.head? }

theorem isCommandInstance_eq_false_iff (k : CtxKind) :
    k.isCommandInstance = false ↔ k = .plain := by
  cases k <;> simp [CtxKind.isCommandInstance]

/-- C2. For every parse result of `CLI.exec`, the command to run is selected
with this priority: the built-in help command when help is enabled and the help
flag was parsed (but only when the terminal context is not a non-cli-kit
Extension) > the explicit command found by the parser > the registered default
command when the parser found no command > no command, in which case exec
returns the parse result instead of invoking an action. The hypotheses record
two facts guaranteed by the CLI constructor: when `help` is enabled the `help`
command is registered, and the root context (the only possible non-Command
terminal) carries no action. -/
theorem cli_exec_command_priority (cli : CLIModel) (p : ParseOutcome)
    (c0 : CtxNode) (h0 : p.contexts.head? = some c0)
    (hhelp : cli.helpEnabled = true → (cli.commandsGet "help").isSome = true)
    (hroot : c0.kind = CtxKind.plain → c0.hasAction = false) :
    ((cli.helpEnabled && p.argvHelp &&
        (!c0.kind.isExtensionInstance || c0.kind.isCLIKitExtension)) = true →
      ∃ h, cli.commandsGet "help" = some h
        ∧ (CLI.execDispatch cli p).selected = some h)
    ∧ ((cli.helpEnabled && p.argvHelp &&
        (!c0.kind.isExtensionInstance || c0.kind.isCLIKitExtension)) = false →
       c0.kind.isCommandInstance = true →
      (CLI.execDispatch cli p).selected = some c0
        ∧ (CLI.execDispatch cli p).ret =
            (if c0.hasAction then ExecReturn.actionResult c0
             else ExecReturn.parsedArgs))
    ∧ ((cli.helpEnabled && p.argvHelp &&
        (!c0.kind.isExtensionInstance || c0.kind.isCLIKitExtension)) = false →
       c0.kind.isCommandInstance = false →
       ∀ d dc, cli.defaultCommand = some d → d ≠ "" →
         cli.commandsGet d = some dc →
      (CLI.execDispatch cli p).selected = some dc)
    ∧ ((cli.helpEnabled && p.argvHelp &&
        (!c0.kind.isExtensionInstance || c0.kind.isCLIKitExtension)) = false →
       c0.kind.isCommandInstance = false →
       (defaultCommandTruthy cli.defaultCommand = false ∨
         ∃ d, cli.defaultCommand = some d ∧ cli.commandsGet d = none) →
      (CLI.execDispatch cli p).selected = some c0
        ∧ (CLI.execDispatch cli p).ret = ExecReturn.parsedArgs) := by
  have hred : CLI.helpRedirectOk p.contexts.head? =
      (!c0.kind.isExtensionInstance || c0.kind.isCLIKitExtension) := by
    rw [h0]
    rfl
  refine ⟨?_, ?_, ?_, ?_⟩
  · intro hsel
    obtain ⟨h, hh⟩ := Option.isSome_iff_exists.mp
      (hhelp (by
        rw [Bool.and_eq_true, Bool.and_eq_true] at hsel
        exact hsel.1.1))
    refine ⟨h, hh, ?_⟩
    unfold CLI.execDispatch
    rw [hred, if_pos hsel, hh]
  · intro hsel hcmd
    unfold CLI.execDispatch
    rw [hred, if_neg (by rw [hsel]; exact Bool.false_ne_true)]
    rw [h0]
    have : isCommandOpt (some c0) = true := hcmd
    rw [if_neg (by rw [this]; simp)]
    constructor
    · rfl
    · show execRet (some c0) = _
      rfl
  · intro hsel hcmd d dc hd hne hdc
    unfold CLI.execDispatch
    rw [hred, if_neg (by rw [hsel]; exact Bool.false_ne_true)]
    rw [h0]
    have h1 : isCommandOpt (some c0) = false := hcmd
    have h2 : defaultCommandTruthy cli.defaultCommand = true := by
      rw [hd]
      show (d != "") = true
      simp [bne_iff_ne, hne]
    have h3 : cli.defaultRegistered = true := by
      unfold CLIModel.defaultRegistered
      rw [hd]
      show (cli.commandsGet d).isSome = true
      rw [hdc]
      rfl
    rw [if_pos (by rw [h1, h2, h3]; rfl)]
    show cli.defaultLookup = some dc
    unfold CLIModel.defaultLookup
    rw [hd]
    show cli.commandsGet d = some dc
    exact hdc
  · intro hsel hcmd hdef
    unfold CLI.execDispatch
    rw [hred, if_neg (by rw [hsel]; exact Bool.false_ne_true)]
    rw [h0]
    have h1 : isCommandOpt (some c0) = false := hcmd
    have h2 : (defaultCommandTruthy cli.defaultCommand &&
        cli.defaultRegistered) = false := by
      rcases hdef with ht | ⟨d, hd, hdc⟩
      · rw [ht]; rfl
      · have : cli.defaultRegistered = false := by
          unfold CLIModel.defaultRegistered
          rw [hd]
          show (cli.commandsGet d).isSome = false
          rw [hdc]
          rfl
        rw [this, Bool.and_false]
    rw [if_neg (by rw [h1, Bool.not_false, Bool.true_and, h2]
                   exact Bool.false_ne_true)]
    refine ⟨rfl, ?_⟩
    show (if c0.hasAction = true then ExecReturn.actionResult c0
          else ExecReturn.parsedArgs) = _
    rw [hroot (isCommandInstance_eq_false_iff c0.kind |>.mp hcmd)]
    rfl

/-- The root context node used in the concrete CLI runs below: a plain
`Context` (the CLI root) with no action, as the CLI constructor builds it. -/
def rootNode : CtxNode := { name := "program", kind := .plain, hasAction := false }

/-- The built-in help command node: registered by the CLI constructor when
`help` is enabled, with an action. -/
def helpNode : CtxNode := { name := "help", kind := .command, hasAction := true }

/-- A CLI with help enabled (so `help` is registered and is the default). -/
def cliW : CLIModel :=
  { helpEnabled := true
    defaultCommand := some "help"
    commandsGet := fun k => if k = "help" then some helpNode else none }

/-- A parse outcome where `--help` was passed and no command was found. -/
def pW : ParseOutcome := { argvHelp := true, contexts := [rootNode] }

/-- Witness for C2: on a CLI with help enabled and a parse that set the help
flag and found no command, the selected command is the registered help
command. -/
theorem cli_exec_command_priority_witness :
    ∃ h, cliW.commandsGet "help" = some h
      ∧ (CLI.execDispatch cliW pW).selected = some h :=
  (cli_exec_command_priority cliW pW rootNode rfl (by decide) (by decide)).1
    (by decide)

theorem execRet_actionResult (o : Option CtxNode) (c : CtxNode)
    (h : execRet o = .actionResult c) : o = some c := by
  cases o with
  | none => exact ExecReturn.noConfusion h
  | some x =>
      by_cases hx : x.hasAction = true
      · have hr : execRet (some x) = .actionResult x := by
          show (if x.hasAction = true then ExecReturn.actionResult x
                else ExecReturn.parsedArgs) = _
          rw [if_pos hx]
        rw [hr] at h
        injection h with h'
        rw [h']
      · have hr : execRet (some x) = .parsedArgs := by
          show (if x.hasAction = true then ExecReturn.actionResult x
                else ExecReturn.parsedArgs) = _
          rw [if_neg hx]
        rw [hr] at h
        exact ExecReturn.noConfusion h

/-- C9. Whenever `CLI.exec` selects the help command or the default command
instead of the context the parser terminated on, it prepends that command to
the contexts list, so the command whose action is invoked is always the first
element of the `contexts` field of the results record passed to the action. -/
theorem cli_exec_invoked_heads_contexts (cli : CLIModel) (p : ParseOutcome)
    (c : CtxNode)
    (h : (CLI.execDispatch cli p).ret = ExecReturn.actionResult c) :
    (CLI.execDispatch cli p).contexts.head? = some (some c) := by
  unfold CLI.execDispatch at h ⊢
  by_cases h1 : (cli.helpEnabled && p.argvHelp &&
      CLI.helpRedirectOk p.contexts.head?) = true
  · rw [if_pos h1] at h ⊢
    dsimp only at h ⊢
    rw [List.head?_cons, execRet_actionResult _ _ h]
  · rw [if_neg h1] at h ⊢
    by_cases h2 : (!isCommandOpt p.contexts.head?
        && defaultCommandTruthy cli.defaultCommand
        && cli.defaultRegistered) = true
    · rw [if_pos h2] at h ⊢
      dsimp only at h ⊢
      rw [List.head?_cons, execRet_actionResult _ _ h]
    · rw [if_neg h2] at h ⊢
      dsimp only at h ⊢
      rw [List.head?_map, execRet_actionResult _ _ h]
      rfl

/-- Witness for C9: on the help-redirected run of `cliW`/`pW` the invoked help
command heads the final contexts list. -/
theorem cli_exec_invoked_heads_contexts_witness :
    (CLI.execDispatch cliW pW).contexts.head? = some (some helpNode) :=
  cli_exec_invoked_heads_contexts cliW pW helpNode (by decide)

/-- A CLI whose `defaultCommand` names a command that was never registered. -/
def cliX : CLIModel :=
  { helpEnabled := false
    defaultCommand := some "foo"
    commandsGet := fun _ => none }

/-- A parse outcome with no help flag and no command found. -/
def pX : ParseOutcome := { argvHelp := false, contexts := [rootNode] }

/-- Counterexample for C8. The claim says that when `defaultCommand` names no
registered command, the CLI fails with a `DEFAULT_COMMAND_NOT_FOUND` error. In
the source, `CLI.exec` only guards the default-command branch with
`this.commands.has(this.defaultCommand)` and contains no throw site in the
selection region; `DEFAULT_COMMAND_NOT_FOUND` is defined in the error
catalogue (src/unnamed/part_001, line 6) but never constructed anywhere under
src/. On `cliX`/`pX` — default command `foo`, nothing registered — exec
completes normally and returns the parse result. -/
theorem default_command_not_found_counterexample :
    cliX.defaultCommand = some "foo"
    ∧ cliX.commandsGet "foo" = none
    ∧ CLI.execDispatch cliX pX =
        { selected := some rootNode, contexts := [some rootNode],
          ret := ExecReturn.parsedArgs } :=
  ⟨rfl, rfl, rfl⟩

/-- C8 as amended. When the CLI's `defaultCommand` names no registered
command, `CLI.exec` silently skips the default-command selection and proceeds
as if no default were set: with no help redirect and no command found by the
parser it returns the parse result, raising no error
(`DEFAULT_COMMAND_NOT_FOUND` exists only in the error catalogue and is never
raised by the code under src/). -/
theorem default_command_missing_skipped (cli : CLIModel) (p : ParseOutcome)
    (c0 : CtxNode) (h0 : p.contexts.head? = some c0)
    (hsel : (cli.helpEnabled && p.argvHelp &&
      (!c0.kind.isExtensionInstance || c0.kind.isCLIKitExtension)) = false)
    (hnc : c0.kind.isCommandInstance = false)
    (hd : ∀ d, cli.defaultCommand = some d → cli.commandsGet d = none)
    (hact : c0.hasAction = false) :
    CLI.execDispatch cli p =
      { selected := some c0, contexts := p.contexts.map some,
        ret := ExecReturn.parsedArgs } := by
  have hred : CLI.helpRedirectOk p.contexts.head? =
      (!c0.kind.isExtensionInstance || c0.kind.isCLIKitExtension) := by
    rw [h0]
    rfl
  unfold CLI.execDispatch
  rw [hred, if_neg (by rw [hsel]; exact Bool.false_ne_true), h0]
  have h1 : isCommandOpt (some c0) = false := hnc
  have h2 : (defaultCommandTruthy cli.defaultCommand &&
      cli.defaultRegistered) = false := by
    cases hdc : cli.defaultCommand with
    | none => rfl
    | some d =>
        have hr : cli.defaultRegistered = false := by
          unfold CLIModel.defaultRegistered
          rw [hdc]
          show (cli.commandsGet d).isSome = false
          rw [hd d hdc]
          rfl
        rw [hr, Bool.and_false]
  rw [if_neg (by rw [h1, Bool.not_false, Bool.true_and, h2]
                 exact Bool.false_ne_true)]
  have hret : execRet (some c0) = ExecReturn.parsedArgs := by
    show (if c0.hasAction = true then ExecReturn.actionResult c0
          else ExecReturn.parsedArgs) = _
    rw [hact]
    rfl
  rw [hret]

/-- Witness for C8 (amended): on `cliX`/`pX` the selection is skipped and the
parse result is returned. -/
theorem default_command_missing_skipped_witness :
    CLI.execDispatch cliX pX =
      { selected := some rootNode, contexts := pX.contexts.map some,
        ret := ExecReturn.parsedArgs } :=
  default_command_missing_skipped cliX pX rootNode rfl (by decide) (by decide)
    (fun _ _ => rfl) rfl
